import Mathlib

/-!
# Verification of the image token-budget optimizer

Shallow embedding of `src/utils/image_optimizer.py` from the
`nerdymark/vision-tool-server` repository, together with proofs and
refutations of the specification's claims about it.

Modelling conventions:

* Python integers are `Int` (arbitrary precision, as in Python).
* Python `math.ceil(a / b)` on integer inputs is modelled as the exact
  rational ceiling `⌈a/b⌉ = (a + b - 1).fdiv b` (for `b > 0`): the IEEE
  double division `a / b` followed by `ceil` agrees with the exact
  ceiling for all magnitudes that arise here.
* Python `int(x)` truncates toward zero; on the non-negative reals that
  occur below this is the floor.
* Python `//` is floor division, modelled by `Int.fdiv`.
* `math.sqrt` over IEEE doubles is modelled as the exact real square
  root.  Concretely, `int(v * math.sqrt(t / c))` for `v ≥ 0` and
  `0 ≤ t/c` equals `⌊√(v² · t / c)⌋`, which is computed exactly on
  integers by `isqrt ((v² * t) / c)`.  The double-precision computation
  agrees with this exact value except when `v·√(t/c)` lies within a few
  ulps of an integer; all concrete evaluations below are far from such
  boundaries.
* The image file system is abstracted: a source image is
  `Option DecodedImage` (`none` = `cv2.imread` returned `None`, i.e. the
  path does not decode), and writing the output file is recorded as a
  boolean field of the result instead of an actual I/O effect.
-/

/-- `TOKENS_PER_TILE_512 = 400` from the source. -/
def TOKENS_PER_TILE_512 : Int := 400

/-- `MAX_TOKENS_TARGET = 3500` from the source. -/
def MAX_TOKENS_TARGET : Int := 3500

/-- `MIN_IMAGE_SIZE = 224` from the source. -/
def MIN_IMAGE_SIZE : Int := 224

/-- `math.ceil(x / 512)` for an integer `x`: the exact ceiling of the
rational `x/512`, i.e. `⌊(x + 511)/512⌋`. -/
def ceil512 (x : Int) : Int := (x + 511).fdiv 512

/-- `estimate_image_tokens` from the source:

```python
tiles_x = math.ceil(width / 512)
tiles_y = math.ceil(height / 512)
total_tiles = tiles_x * tiles_y
estimated_tokens = total_tiles * TOKENS_PER_TILE_512
if total_tiles > 4:
    estimated_tokens = int(estimated_tokens * 1.2)
return estimated_tokens
```

`int(estimated_tokens * 1.2)` is modelled as the exact
`estimated_tokens * 6 / 5`: in the branch `estimated_tokens` is a
multiple of 400, so `estimated_tokens * 1.2` is an integer whose IEEE
double product rounds to exactly that integer (the rounding error of the
double constant `1.2` contributes less than half an ulp), and `int`
leaves it unchanged. -/
def estimate_image_tokens (width height : Int) : Int :=
  let tiles_x := ceil512 width
  let tiles_y := ceil512 height
  let total_tiles := tiles_x * tiles_y
  let estimated_tokens := total_tiles * TOKENS_PER_TILE_512
  if 4 < total_tiles then estimated_tokens * 6 / 5 else estimated_tokens

/-- Fuel-driven integer square root (`⌊√n⌋`), by the classical
`n ↦ n / 4` recursion.  Structural recursion on the fuel keeps it
kernel-computable (Mathlib's `Nat.sqrt` is defined by well-founded
recursion and does not reduce under `decide`). -/
def isqrtFuel : Nat → Nat → Nat
  | 0, _ => 0
  | fuel + 1, n =>
    if n < 2 then n
    else
      let r := 2 * isqrtFuel fuel (n / 4)
      if n < (r + 1) * (r + 1) then r else r + 1

/-- Integer square root `⌊√n⌋`; `n` itself always suffices as fuel. -/
def isqrt (n : Nat) : Nat := isqrtFuel n n

theorem isqrtFuel_spec : ∀ (fuel n : Nat), n ≤ fuel →
    isqrtFuel fuel n * isqrtFuel fuel n ≤ n ∧
      n < (isqrtFuel fuel n + 1) * (isqrtFuel fuel n + 1) := by
  intro fuel
  induction fuel with
  | zero =>
    intro n hn
    interval_cases n
    simp [isqrtFuel]
  | succ fuel ih =>
    intro n hn
    by_cases h2 : n < 2
    · unfold isqrtFuel
      rw [if_pos h2]
      interval_cases n <;> simp
    · push_neg at h2
      have hrec : n / 4 ≤ fuel := by
        have h1 : n / 4 < n := Nat.div_lt_self (by omega) (by omega)
        omega
      obtain ⟨hlo, hhi⟩ := ih (n / 4) hrec
      set s := isqrtFuel fuel (n / 4) with hs
      have hdm := Nat.div_add_mod n 4
      have hm4 : n % 4 < 4 := Nat.mod_lt n (by omega)
      have hdiv : 4 * (n / 4) ≤ n := by omega
      have hmod : n < 4 * (n / 4) + 4 := by omega
      have hlow : (2 * s) * (2 * s) ≤ n := by nlinarith
      have hhigh : n < (2 * s + 2) * (2 * s + 2) := by nlinarith
      unfold isqrtFuel
      rw [if_neg (by omega)]
      by_cases hc : n < (2 * s + 1) * (2 * s + 1)
      · rw [if_pos hc]
        exact ⟨hlow, hc⟩
      · rw [if_neg hc]
        push_neg at hc
        constructor
        · exact hc
        · have : 2 * s + 1 + 1 = 2 * s + 2 := by omega
          rw [this]
          exact hhigh

theorem isqrt_le (n : Nat) : isqrt n * isqrt n ≤ n :=
  (isqrtFuel_spec n n le_rfl).1

theorem lt_isqrt_succ (n : Nat) : n < (isqrt n + 1) * (isqrt n + 1) :=
  (isqrtFuel_spec n n le_rfl).2

/-- `int(v * math.sqrt(target / current))` from the scaling step of
`calculate_target_dimensions`, modelled exactly (see the header):
`target / current ≥ 0` and `current ≠ 0` hold at the call sites, so the
ratio equals `target.natAbs / current.natAbs` as a non-negative
rational, and truncation toward zero of `v·√(t/c)` is
`sign(v) · ⌊√(v² · t / c)⌋`. -/
def scaledTrunc (v target current : Int) : Int :=
  let m : Nat := isqrt (v.natAbs ^ 2 * target.natAbs / current.natAbs)
  if v < 0 then -(m : Int) else (m : Int)

/-- `calculate_target_dimensions` from the source:

```python
current_tokens = estimate_image_tokens(current_width, current_height)
if current_tokens <= target_tokens:
    return current_width, current_height
scale_factor = math.sqrt(target_tokens / current_tokens)
new_width = int(current_width * scale_factor)
new_height = int(current_height * scale_factor)
if new_width < MIN_IMAGE_SIZE or new_height < MIN_IMAGE_SIZE:
    aspect_ratio = current_width / current_height
    if aspect_ratio > 1:
        new_width = MIN_IMAGE_SIZE
        new_height = int(MIN_IMAGE_SIZE / aspect_ratio)
    else:
        new_height = MIN_IMAGE_SIZE
        new_width = int(MIN_IMAGE_SIZE * aspect_ratio)
new_width = (new_width // 16) * 16
new_height = (new_height // 16) * 16
return max(new_width, MIN_IMAGE_SIZE), max(new_height, MIN_IMAGE_SIZE)
```

The two implicit Python failure modes are made explicit as `Except`
errors: `target_tokens / current_tokens` raises `ZeroDivisionError` when
`current_tokens == 0`, and `math.sqrt` raises `ValueError` when the
ratio is negative (possible only for a negative target).  The float
comparison `aspect_ratio > 1`, i.e. `w/h > 1`, is the exact rational
comparison `(w - h) * h > 0`; `int(MIN_IMAGE_SIZE / aspect_ratio)` is
the exact truncation `Int.tdiv (224 * h) w`, and symmetrically for
`int(MIN_IMAGE_SIZE * aspect_ratio)`. -/
def calculate_target_dimensions (current_width current_height target_tokens : Int) :
    Except String (Int × Int) :=
  let current_tokens := estimate_image_tokens current_width current_height
  if current_tokens ≤ target_tokens then
    .ok (current_width, current_height)
  else if current_tokens = 0 then
    .error "ZeroDivisionError: division by zero"
  else if target_tokens * current_tokens < 0 then
    .error "ValueError: math domain error"
  else
    let new_width := scaledTrunc current_width target_tokens current_tokens
    let new_height := scaledTrunc current_height target_tokens current_tokens
    let floored : Except String (Int × Int) :=
      if new_width < MIN_IMAGE_SIZE ∨ new_height < MIN_IMAGE_SIZE then
        if current_height = 0 then
          .error "ZeroDivisionError: division by zero"
        else if (current_width - current_height) * current_height > 0 then
          .ok (MIN_IMAGE_SIZE, Int.tdiv (MIN_IMAGE_SIZE * current_height) current_width)
        else
          .ok (Int.tdiv (MIN_IMAGE_SIZE * current_width) current_height, MIN_IMAGE_SIZE)
      else
        .ok (new_width, new_height)
    floored.map fun q =>
      (max (16 * q.1.fdiv 16) MIN_IMAGE_SIZE, max (16 * q.2.fdiv 16) MIN_IMAGE_SIZE)

/-- A successfully decoded raster image: `image.shape[:2]` gives
`(height, width)`; only the dimensions are relevant to the optimizer. -/
structure DecodedImage where
  width : Nat
  height : Nat
deriving DecidableEq, Repr

/-- The JSON-metadata dictionary built by `resize_image_for_tokens`,
restricted to the fields the claims are about.  `wrote_output` records
whether `cv2.imwrite` was called (the single file write of the resize
branch); the `scale_factor` float and the `token_reduction` /
`output_path` strings are omitted as no claim mentions them. -/
structure ResizeMeta where
  original_size : Int × Int
  original_tokens_estimated : Int
  resized : Bool
  new_size : Option (Int × Int)
  new_tokens_estimated : Option Int
  wrote_output : Bool
deriving DecidableEq, Repr

/-- `resize_image_for_tokens` from the source:

```python
image = cv2.imread(image_path)
if image is None:
    raise ValueError(f"Could not load image: {image_path}")
original_height, original_width = image.shape[:2]
original_tokens = estimate_image_tokens(original_width, original_height)
metadata = {"original_size": ..., "original_tokens_estimated": ..., "resized": False}
if original_tokens <= max_tokens:
    metadata["message"] = "..."
    return image_path, metadata
new_width, new_height = calculate_target_dimensions(original_width, original_height, max_tokens)
resized_image = cv2.resize(...)
cv2.imwrite(output_path, resized_image)
metadata.update({"resized": True, "new_size": [...], "new_tokens_estimated": ..., ...})
return str(output_path), metadata
```

The source image is `none` when `cv2.imread` fails to decode the path;
the raised `ValueError` becomes the `Except.error`. -/
def resize_image_for_tokens (img : Option DecodedImage) (max_tokens : Int) :
    Except String ResizeMeta :=
  match img with
  | none => .error "Could not load image"
  | some image =>
    let original_width : Int := image.width
    let original_height : Int := image.height
    let original_tokens := estimate_image_tokens original_width original_height
    if original_tokens ≤ max_tokens then
      .ok { original_size := (original_width, original_height),
            original_tokens_estimated := original_tokens,
            resized := false,
            new_size := none,
            new_tokens_estimated := none,
            wrote_output := false }
    else
      match calculate_target_dimensions original_width original_height max_tokens with
      | .error e => .error e
      | .ok (new_width, new_height) =>
        .ok { original_size := (original_width, original_height),
              original_tokens_estimated := original_tokens,
              resized := true,
              new_size := some (new_width, new_height),
              new_tokens_estimated := some (estimate_image_tokens new_width new_height),
              wrote_output := true }

/-- One entry of `all_metadata` in `resize_with_retry`: either the
`metadata_copy` dictionary of a successful attempt or the error record
`{"attempt": ..., "target_tokens": ..., "error": str(e)}` of a failed
one. -/
inductive AttemptRecord where
  | ok (attempt : Nat) (target_tokens : Int) (meta : ResizeMeta)
  | err (attempt : Nat) (target_tokens : Int) (error : String)
deriving DecidableEq, Repr

/-- Whether this attempt performed a file write. -/
def AttemptRecord.wrote : AttemptRecord → Bool
  | .ok _ _ m => m.wrote_output
  | .err _ _ _ => false

/-- Number of output files written during a retry history. -/
def writesOf (hist : List AttemptRecord) : Nat :=
  (hist.filter AttemptRecord.wrote).length

/-- `token_targets = [3500, 2800, 2000]` from `resize_with_retry`. -/
def token_targets : List Int := [3500, 2800, 2000]

/-- `token_targets[min(attempt, len(token_targets) - 1)]` for the
0-indexed `attempt`. -/
def targetFor (attempt : Nat) : Int :=
  token_targets.getD (min attempt (token_targets.length - 1)) 0

/-- Outcome of `resize_with_retry`: a `return` from inside the loop, a
propagated exception (`raise`), or the fall-through `return` after the
loop (line 244 of the source).  Each constructor carries the
`all_metadata` history accumulated up to that point so that properties
about the attempts can be stated. -/
inductive RetryResult where
  | success (meta : ResizeMeta) (hist : List AttemptRecord)
  | raised (error : String) (hist : List AttemptRecord)
  | fallthrough (hist : List AttemptRecord)
deriving DecidableEq, Repr

/-- The `for attempt in range(max_attempts)` loop of `resize_with_retry`,
unrolled as structural recursion on the number of remaining iterations.
`attempt` is the 0-indexed Python loop variable; `remaining + 1`
iterations are left, so `remaining = 0` means `attempt ==
max_attempts - 1` (the re-raise case of the `except` block).  A
successful call whose success condition
`metadata.get("resized") or metadata.get("original_tokens_estimated", 0) <= target`
fails appends nothing and falls through to the next iteration, exactly
as in the source. -/
def retryLoop (img : Option DecodedImage) :
    Nat → Nat → List AttemptRecord → RetryResult
  | 0, _, hist => .fallthrough hist
  | remaining + 1, attempt, hist =>
    let target := targetFor attempt
    match resize_image_for_tokens img target with
    | .ok meta =>
      if meta.resized = true ∨ meta.original_tokens_estimated ≤ target then
        .success meta (hist ++ [.ok (attempt + 1) target meta])
      else
        retryLoop img remaining (attempt + 1) hist
    | .error e =>
      let hist' := hist ++ [.err (attempt + 1) target e]
      if remaining = 0 then .raised e hist'
      else retryLoop img remaining (attempt + 1) hist'

/-- `resize_with_retry(image_path, max_attempts)` from the source (the
Python default is `max_attempts=3`). -/
def resize_with_retry (img : Option DecodedImage) (max_attempts : Nat) : RetryResult :=
  retryLoop img max_attempts 0 []

/-! ## Helper lemmas -/

/-- A zero height yields zero tiles and hence a zero token estimate. -/
lemma estimate_image_tokens_height_zero (w : Int) : estimate_image_tokens w 0 = 0 := by
  have h0 : ceil512 0 = 0 := by decide
  simp [estimate_image_tokens, h0]

/-- With a non-negative target, `calculate_target_dimensions` never hits
any of its error paths. -/
lemma calculate_target_dimensions_isOk (w h t : Int) (ht : 0 ≤ t) :
    ∃ p, calculate_target_dimensions w h t = .ok p := by
  unfold calculate_target_dimensions
  by_cases h1 : estimate_image_tokens w h ≤ t
  · exact ⟨(w, h), by rw [if_pos h1]⟩
  · push_neg at h1
    have hct : 0 < estimate_image_tokens w h := lt_of_le_of_lt ht h1
    rw [if_neg (not_le.mpr h1), if_neg (by omega),
      if_neg (not_lt.mpr (mul_nonneg ht hct.le))]
    have hh0 : h ≠ 0 := by
      intro hh
      rw [hh, estimate_image_tokens_height_zero] at hct
      omega
    dsimp only
    split
    · split
      · exact ⟨_, rfl⟩
      · exact ⟨_, rfl⟩
    · exact ⟨_, rfl⟩

/-- `ceil512` is monotone. -/
lemma ceil512_mono {a b : Int} (hab : a ≤ b) : ceil512 a ≤ ceil512 b := by
  unfold ceil512
  rw [Int.fdiv_eq_ediv _ (by norm_num), Int.fdiv_eq_ediv _ (by norm_num)]
  exact Int.ediv_le_ediv (by norm_num) (by omega)

/-- A positive length needs at least one tile. -/
lemma one_le_ceil512 {a : Int} (ha : 0 < a) : 1 ≤ ceil512 a := by
  unfold ceil512
  rw [Int.fdiv_eq_ediv _ (by norm_num)]
  rw [Int.le_ediv_iff_mul_le (by norm_num)]
  omega

/-- The 20% overhead multiplication is the exact `· * 480` on a tile
count (multiples of 400 divide evenly by 5 after `* 6`). -/
lemma tiles_mul_400_mul_6_div_5 (T : Int) : T * 400 * 6 / 5 = T * 480 := by
  have h : T * 400 * 6 = T * 480 * 5 := by ring
  rw [h, Int.mul_ediv_cancel _ (by norm_num)]

/-- Tile count → token count is monotone on non-negative tile counts. -/
lemma tokens_of_tiles_mono {T1 T2 : Int} ( _h0 : 0 ≤ T1) (h12 : T1 ≤ T2) :
    (if 4 < T1 then T1 * 400 * 6 / 5 else T1 * 400) ≤
      (if 4 < T2 then T2 * 400 * 6 / 5 else T2 * 400) := by
  rw [tiles_mul_400_mul_6_div_5, tiles_mul_400_mul_6_div_5]
  by_cases h1 : 4 < T1
  · rw [if_pos h1, if_pos (by omega)]
    omega
  · rw [if_neg h1]
    by_cases h2 : 4 < T2
    · rw [if_pos h2]
      -- T1 * 400 ≤ 1600 < 2400 ≤ T2 * 480
      omega
    · rw [if_neg h2]
      omega

/-- The final `max(_, 224)` of a 16-rounded value is divisible by 16
(`224 = 16 * 14`). -/
lemma dvd_16_max_quant (x : Int) : 16 ∣ max (16 * x) 224 := by
  rcases max_choice (16 * x) (224 : Int) with hm | hm <;> rw [hm]
  · exact Dvd.intro x rfl
  · norm_num

/-- The final clamp guarantees at least 224. -/
lemma le_224_max (x : Int) : (224 : Int) ≤ max x 224 := le_max_right x 224

/-- Any pair leaving the quantization-and-clamp step of
`calculate_target_dimensions` is 16-divisible and at least 224 in both
components. -/
lemma quant_pair_ok {p : Int × Int} {nw nh : Int}
    (heq : Except.map
        (fun q : Int × Int =>
          (max (16 * q.1.fdiv 16) MIN_IMAGE_SIZE, max (16 * q.2.fdiv 16) MIN_IMAGE_SIZE))
        (Except.ok (ε := String) p) = .ok (nw, nh)) :
    (16 ∣ nw ∧ 224 ≤ nw) ∧ (16 ∣ nh ∧ 224 ≤ nh) := by
  simp only [Except.map] at heq
  obtain ⟨h1, h2⟩ : max (16 * p.1.fdiv 16) MIN_IMAGE_SIZE = nw ∧
      max (16 * p.2.fdiv 16) MIN_IMAGE_SIZE = nh := by
    simpa [Prod.ext_iff] using heq
  subst h1 h2
  exact ⟨⟨dvd_16_max_quant _, le_224_max _⟩, dvd_16_max_quant _, le_224_max _⟩

/-- An image already within the budget takes the no-resize fast path. -/
lemma resize_image_for_tokens_within (image : DecodedImage) (mt : Int)
    (hle : estimate_image_tokens image.width image.height ≤ mt) :
    resize_image_for_tokens (some image) mt =
      .ok { original_size := (image.width, image.height),
            original_tokens_estimated := estimate_image_tokens image.width image.height,
            resized := false, new_size := none, new_tokens_estimated := none,
            wrote_output := false } := by
  unfold resize_image_for_tokens
  dsimp only
  rw [if_pos hle]

/-- Every non-raising return of `resize_image_for_tokens` satisfies the
retry controller's success condition: either a resize happened, or the
original estimate was within the attempt's budget. -/
lemma resize_image_for_tokens_ok_condition (img : Option DecodedImage) (t : Int)
    (meta : ResizeMeta) (h : resize_image_for_tokens img t = .ok meta) :
    meta.resized = true ∨ meta.original_tokens_estimated ≤ t := by
  match img with
  | none => simp [resize_image_for_tokens] at h
  | some image =>
    unfold resize_image_for_tokens at h
    dsimp only at h
    by_cases hle : estimate_image_tokens image.width image.height ≤ t
    · rw [if_pos hle] at h
      cases h
      exact Or.inr hle
    · rw [if_neg hle] at h
      split at h
      · exact absurd h (by simp)
      · cases h
        exact Or.inl rfl

/-- If the attempt at index `a` returns `ok` and satisfies the success
condition, the loop stops there and records exactly that attempt. -/
lemma retryLoop_first_ok (img : Option DecodedImage) (r a : Nat)
    (hist : List AttemptRecord) (meta : ResizeMeta)
    (hok : resize_image_for_tokens img (targetFor a) = .ok meta)
    (hcond : meta.resized = true ∨ meta.original_tokens_estimated ≤ targetFor a) :
    retryLoop img (r + 1) a hist =
      .success meta (hist ++ [.ok (a + 1) (targetFor a) meta]) := by
  unfold retryLoop
  simp only [hok]
  rw [if_pos hcond]

/-- The fall-through return after the loop is unreachable for any
positive number of attempts. -/
lemma retryLoop_never_fallthrough (img : Option DecodedImage) :
    ∀ (r a : Nat) (hist histX : List AttemptRecord), 1 ≤ r →
      retryLoop img r a hist ≠ .fallthrough histX := by
  intro r
  induction r with
  | zero =>
    intro a hist histX h
    omega
  | succ r ih =>
    intro a hist histX _
    unfold retryLoop
    cases hE : resize_image_for_tokens img (targetFor a) with
    | ok meta =>
      simp only [hE]
      rw [if_pos (resize_image_for_tokens_ok_condition img (targetFor a) meta hE)]
      simp
    | error e =>
      simp only [hE]
      by_cases hr : r = 0
      · subst hr
        simp
      · rw [if_neg hr]
        exact ih (a + 1) _ histX (by omega)

/-- Cross bound for the two scaled axes: with `A = ⌊W·√(T/C)⌋` and
`B = ⌊H·√(T/C)⌋` (computed as floors of integer square roots),
`A·H < (B+1)·W`. -/
lemma isqrt_ratio_lt (W H T C : Nat) (hW : 0 < W) (hC : 0 < C) :
    isqrt (W ^ 2 * T / C) * H < (isqrt (H ^ 2 * T / C) + 1) * W := by
  set A := isqrt (W ^ 2 * T / C) with hA
  set B := isqrt (H ^ 2 * T / C) with hB
  have hA2 : A * A * C ≤ W ^ 2 * T := (Nat.le_div_iff_mul_le hC).1 (isqrt_le _)
  have hB2 : H ^ 2 * T < (B + 1) * (B + 1) * C :=
    (Nat.div_lt_iff_lt_mul hC).1 (lt_isqrt_succ _)
  have key : (A * H) * (A * H) * C < ((B + 1) * W) * ((B + 1) * W) * C := by
    calc (A * H) * (A * H) * C = (A * A * C) * (H * H) := by ring
    _ ≤ (W ^ 2 * T) * (H * H) := Nat.mul_le_mul hA2 le_rfl
    _ = (H ^ 2 * T) * (W * W) := by ring
    _ < ((B + 1) * (B + 1) * C) * (W * W) :=
        mul_lt_mul_of_pos_right hB2 (Nat.mul_pos hW hW)
    _ = ((B + 1) * W) * ((B + 1) * W) * C := by ring
  have key2 : (A * H) * (A * H) < ((B + 1) * W) * ((B + 1) * W) :=
    lt_of_mul_lt_mul_right key (Nat.zero_le C)
  by_contra hcon
  push_neg at hcon
  exact absurd key2 (not_lt.mpr (Nat.mul_le_mul hcon hcon))

/-- Shape of `calculate_target_dimensions` on the scaling path when the
minimum-size floor does not trigger. -/
lemma calc_scaling_eq (w h t : Int) (ht : 0 ≤ t)
    (hscale : t < estimate_image_tokens w h)
    (hnofloor : ¬(scaledTrunc w t (estimate_image_tokens w h) < 224 ∨
        scaledTrunc h t (estimate_image_tokens w h) < 224)) :
    calculate_target_dimensions w h t =
      .ok (max (16 * (scaledTrunc w t (estimate_image_tokens w h)).fdiv 16) 224,
           max (16 * (scaledTrunc h t (estimate_image_tokens w h)).fdiv 16) 224) := by
  have hct : 0 < estimate_image_tokens w h := lt_of_le_of_lt ht hscale
  unfold calculate_target_dimensions MIN_IMAGE_SIZE
  rw [if_neg (not_le.mpr hscale), if_neg (by omega),
    if_neg (not_lt.mpr (mul_nonneg ht hct.le))]
  dsimp only
  rw [if_neg hnofloor]
  rfl

/-- For `a ≥ 224` the 16-quantization and clamp keep the value within
`(a - 15, a]` and at least 224. -/
lemma quant_eq_of_le (a : Int) (ha : (224 : Int) ≤ a) :
    max (16 * a.fdiv 16) 224 = 16 * (a / 16) ∧
      a - 15 ≤ 16 * (a / 16) ∧ 16 * (a / 16) ≤ a ∧ (224 : Int) ≤ 16 * (a / 16) := by
  rw [Int.fdiv_eq_ediv _ (by norm_num)]
  have h224 : (224 : Int) ≤ 16 * (a / 16) := by omega
  exact ⟨max_eq_left h224, by omega, by omega, h224⟩

/-! ## Claims -/

/-- C4: the token estimator returns these exact values:
`estimate_image_tokens(512, 512) = 400`,
`estimate_image_tokens(1024, 1024) = 1600`,
`estimate_image_tokens(2048, 2048) = 7680`,
`estimate_image_tokens(1920, 1080) = 5760`. -/
theorem estimate_image_tokens_pinned_values :
    estimate_image_tokens 512 512 = 400 ∧
    estimate_image_tokens 1024 1024 = 1600 ∧
    estimate_image_tokens 2048 2048 = 7680 ∧
    estimate_image_tokens 1920 1080 = 5760 := by
  refine ⟨by decide, by decide, by decide, by decide⟩

/-- C5: the token estimate is monotonically non-decreasing in width and
height: for positive dimensions, `w1 ≤ w2` and `h1 ≤ h2` imply
`estimate_image_tokens w1 h1 ≤ estimate_image_tokens w2 h2`. -/
theorem estimate_image_tokens_monotone (w1 h1 w2 h2 : Int)
    (hw1 : 0 < w1) (hh1 : 0 < h1) (hw : w1 ≤ w2) (hh : h1 ≤ h2) :
    estimate_image_tokens w1 h1 ≤ estimate_image_tokens w2 h2 := by
  unfold estimate_image_tokens TOKENS_PER_TILE_512
  dsimp only
  have hx1 := one_le_ceil512 hw1
  have hy1 := one_le_ceil512 hh1
  have hx := ceil512_mono hw
  have hy := ceil512_mono hh
  have hT : ceil512 w1 * ceil512 h1 ≤ ceil512 w2 * ceil512 h2 :=
    mul_le_mul hx hy (by omega) (by omega)
  have hT0 : 0 ≤ ceil512 w1 * ceil512 h1 := mul_nonneg (by omega) (by omega)
  exact tokens_of_tiles_mono hT0 hT

/-- Witness for C5 at `(512, 512) ≤ (1920, 1080)`. -/
theorem estimate_image_tokens_monotone_witness :
    estimate_image_tokens 512 512 ≤ estimate_image_tokens 1920 1080 :=
  estimate_image_tokens_monotone 512 512 1920 1080 (by decide) (by decide)
    (by decide) (by decide)

/-- C3 counterexample: at the invalid input `(0, 0)` with target `3500`,
`calculate_target_dimensions` does not fail with any error — it returns
the invalid dimensions unchanged (the zero estimate passes the
within-budget fast path), refuting "fails with an InvalidDimensions
error; it never returns a result by silently … passing through the
invalid dimensions". -/
theorem calculate_target_dimensions_zero_passthrough :
    calculate_target_dimensions 0 0 3500 = .ok (0, 0) := rfl

/-- C3 amended: the code performs no dimension validation at all.  For
any `current_width ≤ 0` or `current_height ≤ 0` and any non-negative
target, `calculate_target_dimensions` returns a result (no error of any
kind); in particular `(0, 0)` is passed through unchanged. -/
theorem calculate_target_dimensions_no_invalid_dimensions_failure
    (w h t : Int) ( _hwh : w ≤ 0 ∨ h ≤ 0) (ht : 0 ≤ t) :
    (calculate_target_dimensions w h t).isOk = true := by
  obtain ⟨p, hp⟩ := calculate_target_dimensions_isOk w h t ht
  rw [hp]
  rfl

/-- Witness for the amended C3 at `(0, 0, 3500)`. -/
theorem calculate_target_dimensions_no_invalid_dimensions_failure_witness :
    (calculate_target_dimensions 0 0 3500).isOk = true :=
  calculate_target_dimensions_no_invalid_dimensions_failure 0 0 3500
    (Or.inl (by decide)) (by decide)

/-- C6: whenever `calculate_target_dimensions` triggers scaling
(`estimate_image_tokens w h > target`) on positive dimensions and
returns a result, both returned dimensions are multiples of 16 and both
are at least 224. -/
theorem calculate_target_dimensions_quantized_and_floored
    (w h t nw nh : Int) ( _hw : 0 < w) (hh : 0 < h)
    (hscale : t < estimate_image_tokens w h)
    (heq : calculate_target_dimensions w h t = .ok (nw, nh)) :
    (16 ∣ nw ∧ 224 ≤ nw) ∧ (16 ∣ nh ∧ 224 ≤ nh) := by
  unfold calculate_target_dimensions at heq
  rw [if_neg (not_le.mpr hscale)] at heq
  by_cases h0 : estimate_image_tokens w h = 0
  · rw [if_pos h0] at heq
    exact absurd heq (by simp)
  · rw [if_neg h0] at heq
    by_cases hneg : t * estimate_image_tokens w h < 0
    · rw [if_pos hneg] at heq
      exact absurd heq (by simp)
    · rw [if_neg hneg] at heq
      dsimp only at heq
      have hh0 : h ≠ 0 := by omega
      split at heq
      · split at heq
        · exact quant_pair_ok heq
        · exact quant_pair_ok heq
      · exact quant_pair_ok heq

/-- Witness for C6 at `(4096, 4096, 3500)`, whose scaled result is
`(1376, 1376)`. -/
theorem calculate_target_dimensions_quantized_and_floored_witness :
    (16 ∣ (1376 : Int) ∧ (224 : Int) ≤ 1376) ∧
      (16 ∣ (1376 : Int) ∧ (224 : Int) ≤ 1376) :=
  calculate_target_dimensions_quantized_and_floored 4096 4096 3500 1376 1376
    (by decide) (by decide) (by decide) rfl

/-- C7: if `estimate_image_tokens(w, h) ≤ target` then
`calculate_target_dimensions` returns `(w, h)` unchanged, and applying
it again to that output with the same target yields the same output. -/
theorem calculate_target_dimensions_noop_idempotent (w h t : Int)
    (hle : estimate_image_tokens w h ≤ t) :
    calculate_target_dimensions w h t = .ok (w, h) ∧
      ∀ w' h', calculate_target_dimensions w h t = .ok (w', h') →
        calculate_target_dimensions w' h' t = .ok (w', h') := by
  have h1 : calculate_target_dimensions w h t = .ok (w, h) := by
    unfold calculate_target_dimensions
    rw [if_pos hle]
  refine ⟨h1, fun w' h' heq => ?_⟩
  rw [h1] at heq
  obtain ⟨rfl, rfl⟩ : w = w' ∧ h = h' := by
    simpa [Prod.ext_iff] using heq
  exact h1

/-- Witness for C7 at `(512, 512, 3500)`. -/
theorem calculate_target_dimensions_noop_idempotent_witness :
    calculate_target_dimensions 512 512 3500 = .ok (512, 512) :=
  (calculate_target_dimensions_noop_idempotent 512 512 3500 (by decide)).1

/-- The metadata dictionary of the no-resize fast path. -/
def noResizeMeta (img : DecodedImage) : ResizeMeta :=
  { original_size := (img.width, img.height),
    original_tokens_estimated := estimate_image_tokens img.width img.height,
    resized := false, new_size := none, new_tokens_estimated := none,
    wrote_output := false }

/-- C8: an image whose estimate is at most 2000 (the smallest ladder
rung) makes `resize_with_retry` return on the first attempt with a
`retry_history` of length exactly 1 and `resized = false`. -/
theorem resize_with_retry_within_smallest_rung (img : DecodedImage)
    (hsmall : estimate_image_tokens img.width img.height ≤ 2000) :
    resize_with_retry (some img) 3 =
        .success (noResizeMeta img) [.ok 1 3500 (noResizeMeta img)] ∧
      (noResizeMeta img).resized = false ∧
      [AttemptRecord.ok 1 3500 (noResizeMeta img)].length = 1 := by
  have h35 : estimate_image_tokens img.width img.height ≤ 3500 :=
    le_trans hsmall (by norm_num)
  have h0 : targetFor 0 = 3500 := rfl
  refine ⟨?_, rfl, rfl⟩
  show retryLoop (some img) (2 + 1) 0 [] = _
  rw [retryLoop_first_ok (some img) 2 0 [] (noResizeMeta img)
    (by rw [h0]; exact resize_image_for_tokens_within img 3500 h35)
    (Or.inr (h0 ▸ h35))]
  rfl

/-- Witness for C8 at a 512×512 image (estimate 400 ≤ 2000). -/
theorem resize_with_retry_within_smallest_rung_witness :
    resize_with_retry (some ⟨512, 512⟩) 3 =
        .success (noResizeMeta ⟨512, 512⟩) [.ok 1 3500 (noResizeMeta ⟨512, 512⟩)] ∧
      (noResizeMeta ⟨512, 512⟩).resized = false ∧
      [AttemptRecord.ok 1 3500 (noResizeMeta ⟨512, 512⟩)].length = 1 :=
  resize_with_retry_within_smallest_rung ⟨512, 512⟩ (by decide)

/-- C10: every non-raising return of `resize_image_for_tokens` satisfies
the retry controller's success condition (a resize happened or the
original estimate is within the attempt's target), so `resize_with_retry`
always returns from inside its loop; the fall-through return after the
loop is unreachable for any positive `max_attempts`. -/
theorem resize_with_retry_no_fallthrough (img : Option DecodedImage) (n : Nat)
    (hn : 1 ≤ n) :
    (∀ t meta, resize_image_for_tokens img t = .ok meta →
        meta.resized = true ∨ meta.original_tokens_estimated ≤ t) ∧
      ∀ hist, resize_with_retry img n ≠ .fallthrough hist :=
  ⟨fun t meta h => resize_image_for_tokens_ok_condition img t meta h,
   fun hist => retryLoop_never_fallthrough img n 0 [] hist hn⟩

/-- Witness for C10 with a 512×512 image and the default 3 attempts. -/
theorem resize_with_retry_no_fallthrough_witness :
    resize_with_retry (some ⟨512, 512⟩) 3 ≠ .fallthrough [] :=
  (resize_with_retry_no_fallthrough (some ⟨512, 512⟩) 3 (by decide)).2 []

/-- On an undecodable image every attempt records the decode error and
the loop re-raises it only on the last attempt. -/
lemma retryLoop_none_all_fail (r : Nat) :
    ∀ (a : Nat) (hist : List AttemptRecord), 1 ≤ r →
      retryLoop none r a hist =
        .raised "Could not load image"
          (hist ++ (List.range' a r).map
            fun i => .err (i + 1) (targetFor i) "Could not load image") := by
  induction r with
  | zero =>
    intro a hist h
    omega
  | succ r ih =>
    intro a hist _
    unfold retryLoop
    have hE : resize_image_for_tokens none (targetFor a) =
        .error "Could not load image" := rfl
    simp only [hE]
    by_cases hr : r = 0
    · subst hr
      rw [if_pos rfl]
      simp [List.range'_succ]
    · rw [if_neg hr]
      rw [ih (a + 1) _ (by omega)]
      rw [List.range'_succ]
      simp

/-- C1 counterexample: on a decode failure with the default
`max_attempts = 3`, `resize_with_retry` does **not** stop after the
first attempt: it records the decode error on all three attempts
(history length 3) and only then re-raises, refuting "fails …
immediately on the first attempt, with no further retry attempts".  (No
output file is written: every history entry is an error record.) -/
theorem resize_with_retry_decode_retries_counterexample :
    resize_with_retry none 3 =
      .raised "Could not load image"
        [.err 1 3500 "Could not load image",
         .err 2 2800 "Could not load image",
         .err 3 2000 "Could not load image"] ∧
    [AttemptRecord.err 1 3500 "Could not load image",
     AttemptRecord.err 2 2800 "Could not load image",
     AttemptRecord.err 3 2000 "Could not load image"].length = 3 ∧
    writesOf
      [AttemptRecord.err 1 3500 "Could not load image",
       AttemptRecord.err 2 2800 "Could not load image",
       AttemptRecord.err 3 2000 "Could not load image"] = 0 :=
  ⟨rfl, rfl, rfl⟩

/-- C1 amended: if decoding fails, every one of the `max_attempts`
attempts records the decode error (the controller catches and retries;
it does not stop after the first attempt), the error is re-raised only
after the last attempt, and no output file is written. -/
theorem resize_with_retry_decode_failure_exhausts_attempts (n : Nat) (hn : 1 ≤ n) :
    resize_with_retry none n =
      .raised "Could not load image"
        ((List.range n).map fun i => .err (i + 1) (targetFor i) "Could not load image") ∧
    writesOf ((List.range n).map
        fun i => .err (i + 1) (targetFor i) "Could not load image") = 0 := by
  constructor
  · rw [List.range_eq_range']
    exact retryLoop_none_all_fail n 0 [] hn
  · simp [writesOf, List.filter_map, AttemptRecord.wrote]

/-- Witness for the amended C1 at `max_attempts = 3`. -/
theorem resize_with_retry_decode_failure_exhausts_attempts_witness :
    resize_with_retry none 3 =
      .raised "Could not load image"
        ((List.range 3).map fun i => .err (i + 1) (targetFor i) "Could not load image") :=
  (resize_with_retry_decode_failure_exhausts_attempts 3 (by decide)).1

/-- C2 counterexample: on a 4096×4096 image (estimate 30720),
`resize_with_retry` does resize on attempt 1 with target 3500 and
returns `new_size = (1376, 1376)` — but `estimate_image_tokens 1376
1376 = 4320 > 3500`, **and** the minimum-size floor is not the cause:
the pre-quantization scaled dimensions are `1382 ≥ 224` in both axes,
so the floor branch was never taken.  This refutes "yield a value at
most 3500, or else the minimum-size floor (224) override is the cause
of any overage". -/
theorem resize_retry_4096_over_budget_counterexample :
    resize_with_retry (some ⟨4096, 4096⟩) 3 =
      .success
        { original_size := (4096, 4096), original_tokens_estimated := 30720,
          resized := true, new_size := some (1376, 1376),
          new_tokens_estimated := some 4320, wrote_output := true }
        [.ok 1 3500
          { original_size := (4096, 4096), original_tokens_estimated := 30720,
            resized := true, new_size := some (1376, 1376),
            new_tokens_estimated := some 4320, wrote_output := true }] ∧
    estimate_image_tokens 1376 1376 = 4320 ∧ (3500 : Int) < 4320 ∧
    scaledTrunc 4096 3500 (estimate_image_tokens 4096 4096) = 1382 ∧
    (224 : Int) ≤ 1382 :=
  ⟨rfl, rfl, by decide, rfl, by decide⟩

/-- C2 amended: `resize_with_retry` on a 4096×4096 image triggers a
resize on attempt 1 with target 3500 and returns
`new_size = (1376, 1376)`, whose re-estimate is 4320 — over the 3500
target even though the minimum-size floor is inactive (the pre-floor
scaled dimensions are 1382): the tile-quantized token model makes the
area-based scaling overshoot the budget, and the controller accepts any
resize as success. -/
theorem resize_retry_4096_result :
    resize_with_retry (some ⟨4096, 4096⟩) 3 =
      .success
        { original_size := (4096, 4096), original_tokens_estimated := 30720,
          resized := true, new_size := some (1376, 1376),
          new_tokens_estimated := some 4320, wrote_output := true }
        [.ok 1 3500
          { original_size := (4096, 4096), original_tokens_estimated := 30720,
            resized := true, new_size := some (1376, 1376),
            new_tokens_estimated := some 4320, wrote_output := true }] ∧
    (3500 : Int) < 4320 ∧ scaledTrunc 4096 3500 (estimate_image_tokens 4096 4096) = 1382 :=
  ⟨rfl, by decide, rfl⟩

/-- C9 counterexample: at `(268, 4096, 3500)` scaling triggers
(estimate 3840 > 3500), the minimum-size floor is inactive (pre-floor
scaled dimensions 255 and 3910, both ≥ 224), and the returned pair is
`(240, 3904)` — whose aspect-ratio deviation
`|240/3904 - 268/4096| / (268/4096) = 63232/1046272 ≈ 6.04 %` is **not**
below 5%, refuting the claimed tolerance.  (The 5% bound is stated
integrally: deviation ≥ 1/20 iff `20·|nw·h - nh·w| ≥ nh·w`.) -/
theorem aspect_ratio_five_percent_counterexample :
    calculate_target_dimensions 268 4096 3500 = .ok (240, 3904) ∧
    estimate_image_tokens 268 4096 = 3840 ∧ (3500 : Int) < 3840 ∧
    scaledTrunc 268 3500 3840 = 255 ∧ scaledTrunc 4096 3500 3840 = 3910 ∧
    (224 : Int) ≤ 255 ∧ (224 : Int) ≤ 3910 ∧
    (3904 * 268 : Int) ≤ 20 * ((240 * 4096 - 3904 * 268 : Int).natAbs : Int) :=
  ⟨rfl, rfl, by decide, rfl, rfl, by decide, by decide, by decide⟩

/-- C9 amended: on the scaling path with the minimum-size floor
inactive, the aspect-ratio deviation
`|new_w/new_h - w/h| / (w/h) = |new_w·h - new_h·w| / (new_h·w)` is
below 10% (instead of the claimed 5%): truncation plus the
multiple-of-16 quantization can lose up to 15 pixels per axis, which on
dimensions close to the 224 floor exceeds 5% but stays under 10%. -/
theorem aspect_ratio_within_ten_percent
    (w h t nw nh : Int) (hw : 0 < w) (hh : 0 < h) (ht : 0 ≤ t)
    (hscale : t < estimate_image_tokens w h)
    (hwfloor : 224 ≤ scaledTrunc w t (estimate_image_tokens w h))
    (hhfloor : 224 ≤ scaledTrunc h t (estimate_image_tokens w h))
    (heq : calculate_target_dimensions w h t = .ok (nw, nh)) :
    10 * |nw * h - nh * w| < nh * w := by
  have hct : 0 < estimate_image_tokens w h := lt_of_le_of_lt ht hscale
  rw [calc_scaling_eq w h t ht hscale (by omega)] at heq
  set c := estimate_image_tokens w h with hc
  set a := scaledTrunc w t c with hA
  set b := scaledTrunc h t c with hB
  obtain ⟨h1, h2⟩ : max (16 * a.fdiv 16) 224 = nw ∧ max (16 * b.fdiv 16) 224 = nh := by
    simpa [Prod.ext_iff] using heq
  obtain ⟨hqa, haL, haU, ha224⟩ := quant_eq_of_le a hwfloor
  obtain ⟨hqb, hbL, hbU, hb224⟩ := quant_eq_of_le b hhfloor
  have hnw1 : a - 15 ≤ nw := by omega
  have hnw2 : nw ≤ a := by omega
  have hnw3 : (224 : Int) ≤ nw := by omega
  have hnh1 : b - 15 ≤ nh := by omega
  have hnh2 : nh ≤ b := by omega
  have hnh3 : (224 : Int) ≤ nh := by omega
  have haval : a = ((isqrt (w.natAbs ^ 2 * t.natAbs / c.natAbs) : Nat) : Int) := by
    rw [hA]
    unfold scaledTrunc
    rw [if_neg (not_lt.mpr hw.le)]
  have hbval : b = ((isqrt (h.natAbs ^ 2 * t.natAbs / c.natAbs) : Nat) : Int) := by
    rw [hB]
    unfold scaledTrunc
    rw [if_neg (not_lt.mpr hh.le)]
  have hWpos : 0 < w.natAbs := Int.natAbs_pos.mpr (ne_of_gt hw)
  have hHpos : 0 < h.natAbs := Int.natAbs_pos.mpr (ne_of_gt hh)
  have hCpos : 0 < c.natAbs := Int.natAbs_pos.mpr (ne_of_gt hct)
  have k1 := isqrt_ratio_lt w.natAbs h.natAbs t.natAbs c.natAbs hWpos hCpos
  have k2 := isqrt_ratio_lt h.natAbs w.natAbs t.natAbs c.natAbs hHpos hCpos
  have hwcast : (w.natAbs : Int) = w := Int.natAbs_of_nonneg hw.le
  have hhcast : (h.natAbs : Int) = h := Int.natAbs_of_nonneg hh.le
  have F1 : a * h < (b + 1) * w := by
    rw [haval, hbval, ← hwcast, ← hhcast]
    exact_mod_cast k1
  have F2 : b * w < (a + 1) * h := by
    rw [haval, hbval, ← hwcast, ← hhcast]
    exact_mod_cast k2
  have e1 : nw * h ≤ a * h := mul_le_mul_of_nonneg_right hnw2 hh.le
  have e2 : (a - 15) * h ≤ nw * h := mul_le_mul_of_nonneg_right hnw1 hh.le
  have e3 : nh * w ≤ b * w := mul_le_mul_of_nonneg_right hnh2 hw.le
  have e4 : (b - 15) * w ≤ nh * w := mul_le_mul_of_nonneg_right hnh1 hw.le
  have e5 : 224 * w ≤ nh * w := mul_le_mul_of_nonneg_right hnh3 hw.le
  have e6 : 224 * h ≤ a * h := mul_le_mul_of_nonneg_right hwfloor hh.le
  rcases abs_cases (nw * h - nh * w) with ⟨habs, _⟩ | ⟨habs, _⟩
  · rw [habs]
    linarith
  · rw [habs]
    rcases le_total h w with hle | hle
    · have e7 : 160 * h ≤ 160 * w := by omega
      linarith
    · have e8 : 16 * w ≤ 16 * h := by omega
      linarith

/-- Witness for the amended C9 at `(4096, 4096, 3500) ↦ (1376, 1376)`
(scaled pre-floor dimensions 1382 ≥ 224, deviation 0 < 10%). -/
theorem aspect_ratio_within_ten_percent_witness :
    10 * |(1376 * 4096 - 1376 * 4096 : Int)| < (1376 * 4096 : Int) :=
  aspect_ratio_within_ten_percent 4096 4096 3500 1376 1376
    (by decide) (by decide) (by decide) (by decide) (by decide) (by decide) rfl

